import Mathlib

/-!
Shallow embedding of the query pipeline of the kabir-ke-dohe-api repository
(src/utils.js and src/filters.js), together with proofs about its filter,
sort and pagination stages.

JavaScript's loosely-typed option values are modelled by the `JSValue`
inductive; fallible conversions return `Except String`.  JS machine numbers
appearing here are integral (page numbers, page sizes, numeric identifier
strings), so they are modelled by `Int`; the NaN outcome of `Number(...)`
is modelled by `Option Int` with `none` standing for NaN.
-/

deriving instance DecidableEq for Except

namespace Kabir

/-- ASCII lowercasing of one character, as `String.prototype.toLowerCase`
acts on the ASCII range — the only case-bearing characters this pipeline
compares (Devanagari has no case). -/
def jsCharToLower (c : Char) : Char :=
  if 'A' ≤ c ∧ c ≤ 'Z' then Char.ofNat (c.toNat + 32) else c

/-- ASCII uppercasing of one character, as `String.prototype.toUpperCase`
acts on the ASCII range. -/
def jsCharToUpper (c : Char) : Char :=
  if 'a' ≤ c ∧ c ≤ 'z' then Char.ofNat (c.toNat - 32) else c

/-- JS `String.prototype.toLowerCase` on the strings this pipeline sees. -/
def jsToLower (s : String) : String :=
  ⟨s.data.map jsCharToLower⟩

/-- JS `String.prototype.toUpperCase` on the strings this pipeline sees. -/
def jsToUpper (s : String) : String :=
  ⟨s.data.map jsCharToUpper⟩

/-- JS `String.prototype.trim`: strip leading and trailing whitespace. -/
def jsTrim (s : String) : String :=
  ⟨((s.data.dropWhile Char.isWhitespace).reverse.dropWhile Char.isWhitespace).reverse⟩

/-- JS `String.prototype.split` with a one-character separator (the only
separators the pipeline uses are a space and a comma): empty pieces are
kept, and the empty string yields one empty piece. -/
def jsSplitAux (sep : Char) : List Char → List Char → List String
  | [], acc => [⟨acc.reverse⟩]
  | c :: cs, acc =>
    if c = sep then ⟨acc.reverse⟩ :: jsSplitAux sep cs []
    else jsSplitAux sep cs (c :: acc)

/-- JS `s.split(sep)` for a one-character separator. -/
def jsSplit (s : String) (sep : Char) : List String :=
  jsSplitAux sep s.data []

/-- The value of a non-empty run of decimal digits; `none` if the run is
empty or holds a non-digit. -/
def digitsToNatAux : List Char → Nat → Option Nat
  | [], acc => some acc
  | c :: cs, acc =>
    if c.isDigit then digitsToNatAux cs (acc * 10 + (c.toNat - 48)) else none

/-- As `digitsToNatAux`, rejecting the empty run. -/
def digitsToNat : List Char → Option Nat
  | [] => none
  | l => digitsToNatAux l 0

/-- A loosely-typed JavaScript value as it reaches the pipeline's
boolean-like option slots and the `popular` record field:
a boolean, a (integral) number, a string, `null`, or `undefined`. -/
inductive JSValue where
  | vBool : Bool → JSValue
  | vNum : Int → JSValue
  | vStr : String → JSValue
  | vNull : JSValue
  | vUndef : JSValue
deriving DecidableEq, Repr

/-- `toBool` from src/utils.js: booleans pass through; strings are trimmed,
lowercased and compared against "true"/"1"/"false"/"0"; the numbers 1 and 0
convert; everything else throws (modelled as `Except.error`). -/
def toBool : JSValue → Except String Bool
  | .vBool b => .ok b
  | .vStr s =>
    let str := jsToLower (jsTrim s)
    if str = "true" ∨ str = "1" then .ok true
    else if str = "false" ∨ str = "0" then .ok false
    else .error "Cannot convert value of type string to boolean."
  | .vNum n =>
    if n = 1 then .ok true
    else if n = 0 then .ok false
    else .error "Cannot convert value of type number to boolean."
  | .vNull => .error "Cannot convert value of type object to boolean."
  | .vUndef => .error "Cannot convert value of type undefined to boolean."

/-- A tag value object (slug, display name, usage count). -/
structure Tag where
  slug : String
  name : String
  count : Nat
deriving DecidableEq, Repr

/-- A couplet record as described by the data model: identifier (string or
numeric-string), slugs, the six bilingual text fields, tag list, and the
loosely-typed popularity flag. -/
structure Couplet where
  id : String
  slug : String
  unique_slug : String
  couplet_hindi : String
  couplet_english : String
  translation_hindi : String
  translation_english : String
  explanation_hindi : String
  explanation_english : String
  tags : List Tag
  popular : JSValue
deriving DecidableEq, Repr

/-- Dynamic field access `item[field]` for the string-valued fields of a
record; `none` models `undefined` (unknown field, or a non-string field,
which the string-searching and generic-comparison code never selects). -/
def getField (c : Couplet) (field : String) : Option String :=
  if field = "id" then some c.id
  else if field = "slug" then some c.slug
  else if field = "unique_slug" then some c.unique_slug
  else if field = "couplet_hindi" then some c.couplet_hindi
  else if field = "couplet_english" then some c.couplet_english
  else if field = "translation_hindi" then some c.translation_hindi
  else if field = "translation_english" then some c.translation_english
  else if field = "explanation_hindi" then some c.explanation_hindi
  else if field = "explanation_english" then some c.explanation_english
  else none

/-- Whether `needle` occurs as a contiguous run inside the haystack. -/
def hasSubList (needle : List Char) : List Char → Bool
  | [] => needle.isEmpty
  | c :: cs => needle.isPrefixOf (c :: cs) || hasSubList needle cs

/-- JS `String.prototype.includes`: substring containment (over code points). -/
def jsIncludes (s sub : String) : Bool :=
  hasSubList sub.toList s.toList

/-- Models JS `Number(...)` applied to a string, on the forms the pipeline
receives: surrounding whitespace is trimmed, the empty string converts to 0,
and an optional-sign run of decimal digits converts to its value; anything
else is NaN (`none`).  Fractional, hexadecimal and exponent forms do not
occur in this dataset and are not modelled. -/
def jsToNumber (s : String) : Option Int :=
  match (jsTrim s).data with
  | [] => some 0
  | '+' :: rest => (digitsToNat rest).map (fun n => (n : Int))
  | '-' :: rest => (digitsToNat rest).map (fun n => -(n : Int))
  | t => (digitsToNat t).map (fun n => (n : Int))

/-- Models JS `Number(...)` on a loosely-typed value: booleans give 1/0,
`null` gives 0, `undefined` gives NaN (`none`), strings via `jsToNumber`. -/
def jsValueToNumber : JSValue → Option Int
  | .vBool b => some (if b then 1 else 0)
  | .vNum n => some n
  | .vStr s => jsToNumber s
  | .vNull => some 0
  | .vUndef => none

/-- JS truthiness of a loosely-typed value (used by the `popular` sort
branch's ternary on the raw field). -/
def jsTruthy : JSValue → Bool
  | .vBool b => b
  | .vNum n => n ≠ 0
  | .vStr s => s ≠ ""
  | .vNull => false
  | .vUndef => false

/-- Insertion step of the model of JS `Array.prototype.sort`: `x`, which
originally preceded every element of the list, is placed before the first
element it does not strictly follow (comparator result ≤ 0), preserving
stability. -/
def jsInsert (cmp : α → α → Int) (x : α) : List α → List α
  | [] => [x]
  | y :: ys => if cmp x y ≤ 0 then x :: y :: ys else y :: jsInsert cmp x ys

/-- JS `Array.prototype.sort` with a comparator.  The ECMAScript sort is
stable; for a consistent comparator every stable sort yields the same list,
so it is modelled by a stable insertion sort: `a` ends up before `b`
whenever `cmp a b ≤ 0` and `a` preceded `b` in the input. -/
def jsSort (cmp : α → α → Int) : List α → List α
  | [] => []
  | x :: xs => jsInsert cmp x (jsSort cmp xs)

/-- Models the `JSON.stringify` fallback dedup key of `filterBySearch`: an
injective-by-construction textual serialization of a loosely-typed value.
Only its role as a Map key matters to the pipeline. -/
def stringifyJSValue : JSValue → String
  | .vBool b => if b then "true" else "false"
  | .vNum n => toString n
  | .vStr s => s.quote
  | .vNull => "null"
  | .vUndef => "undefined"

/-- Serialization of a tag for the `JSON.stringify` dedup-key model. -/
def stringifyTag (t : Tag) : String :=
  String.intercalate ":" [t.slug.quote, t.name.quote, toString t.count]

/-- Models `JSON.stringify(item)` as used for the dedup fallback key in
`filterBySearch`: a textual serialization of the whole record.  Only its
role as a Map key matters, not the exact JSON syntax. -/
def stringifyCouplet (c : Couplet) : String :=
  String.intercalate ","
    ([c.id.quote, c.slug.quote, c.unique_slug.quote, c.couplet_hindi.quote,
      c.couplet_english.quote, c.translation_hindi.quote,
      c.translation_english.quote, c.explanation_hindi.quote,
      c.explanation_english.quote] ++ c.tags.map stringifyTag
      ++ [stringifyJSValue c.popular])

/-- The dedup key `item.id || JSON.stringify(item)`: the identifier when it
is truthy (a non-empty string), otherwise the serialized record. -/
def coupletKey (c : Couplet) : String :=
  if c.id = "" then stringifyCouplet c else c.id

/-- The Map-based deduplication of `filterBySearch` lines 59-70: walk the
concatenated results in order and keep each record whose key has not been
seen yet (JS `Map` preserves insertion order). -/
def dedupeByKey : List Couplet → List String → List Couplet
  | [], _ => []
  | c :: cs, seen =>
    if coupletKey c ∈ seen then dedupeByKey cs seen
    else c :: dedupeByKey cs (coupletKey c :: seen)

/-- The set of seen keys after walking a list, mirroring `dedupeByKey`. -/
def keysAfter : List Couplet → List String → List String
  | [], seen => seen
  | c :: cs, seen =>
    if coupletKey c ∈ seen then keysAfter cs seen
    else keysAfter cs (coupletKey c :: seen)

/-- The list of six text fields searched when `searchWithin` is "all" or
absent. -/
def searchFieldsAll : List String :=
  ["couplet_hindi", "couplet_english", "translation_hindi",
   "translation_english", "explanation_hindi", "explanation_english"]

/-- Resolution of `searchWithin` into the concrete field list
(filterBySearch lines 20-43): "all" or empty gives all six fields, else the
comma-separated tokens "couplet"/"translation"/"explanation" each push
their Hindi+English pair, in that order. -/
def fieldsToSearch (searchWithin : String) : List String :=
  if searchWithin = "all" ∨ searchWithin = "" then searchFieldsAll
  else
    let searchWithinArray := (jsSplit searchWithin ',').map (fun f => jsToLower (jsTrim f))
    (if searchWithinArray.contains "couplet" then ["couplet_hindi", "couplet_english"] else [])
    ++ (if searchWithinArray.contains "translation" then ["translation_hindi", "translation_english"] else [])
    ++ (if searchWithinArray.contains "explanation" then ["explanation_hindi", "explanation_english"] else [])

/-- `item[field]?.toLowerCase().includes(needle)`: optional chaining makes a
missing field contribute `false`. -/
def fieldMatches (c : Couplet) (field : String) (needle : String) : Bool :=
  match getField c field with
  | some v => jsIncludes (jsToLower v) needle
  | none => false

/-- Tier-(a) match: the whole lowercased search string is contained in some
searched field (filterBySearch lines 46-48 and 74-75). -/
def matchesWhole (fields : List String) (searchLower : String) (c : Couplet) : Bool :=
  fields.any fun field => fieldMatches c field searchLower

/-- Tier-(b) match: some whitespace-split term is contained in some
searched field (filterBySearch lines 53-55). -/
def matchesToken (fields : List String) (searchTerms : List String) (c : Couplet) : Bool :=
  searchTerms.any fun term => fields.any fun field => fieldMatches c field term

/-- The non-empty lowercased terms of the search string: split on a single
space, trim each piece, drop the empty ones (filterBySearch lines 14-18). -/
def searchTermsOf (search : String) : List String :=
  (((jsSplit (jsToLower search) ' ').map jsTrim)).filter (fun term => term.length > 0)

/-- The comparator of filterBySearch lines 73-84: whole-string matches
first, ties (both or neither) left in place. -/
def exactCmp (fields : List String) (searchLower : String) (a b : Couplet) : Int :=
  let aMatchesExact := matchesWhole fields searchLower a
  let bMatchesExact := matchesWhole fields searchLower b
  if aMatchesExact && !bMatchesExact then -1
  else if !aMatchesExact && bMatchesExact then 1
  else 0

/-- `filterBySearch` from src/filters.js: empty search returns the data
unchanged; otherwise whole-string matches are collected, `exactMatch` is
boolean-normalized (a conversion failure aborts the call), token matches
are added when it is false, the union is deduplicated by key in insertion
order, and the result is sorted whole-string-matches-first. -/
def filterBySearch (data : List Couplet) (search : String) (exactMatch : JSValue)
    (searchWithin : String) : Except String (List Couplet) :=
  if search = "" then .ok data
  else
    let searchLower := jsToLower search
    let searchTerms := searchTermsOf search
    let fields := fieldsToSearch searchWithin
    let exactMatchResults := data.filter (matchesWhole fields searchLower)
    match toBool exactMatch with
    | .error e => .error e
    | .ok em =>
      let partialMatchResults :=
        if !em then data.filter (matchesToken fields searchTerms) else []
      let mergedUniqueResults := dedupeByKey (exactMatchResults ++ partialMatchResults) []
      .ok (jsSort (exactCmp fields searchLower) mergedUniqueResults)

/-- `filterByTags` from src/filters.js: empty tag list is the identity;
otherwise keep records having a tag whose lowercased slug is among the
trimmed, lowercased comma-separated requested tags. -/
def filterByTags (data : List Couplet) (tags : String) : List Couplet :=
  if tags = "" then data
  else
    let tagsArray := (jsSplit tags ',').map (fun tag => jsToLower (jsTrim tag))
    data.filter (fun post => post.tags.any (fun tag => tagsArray.contains (jsToLower tag.slug)))

/-- Left-to-right effectful filter, modelling JS `Array.prototype.filter`
with a predicate that can throw: the first thrown error aborts the call. -/
def filterE (p : Couplet → Except String Bool) : List Couplet → Except String (List Couplet)
  | [] => .ok []
  | c :: cs => do
    let b ← p c
    let rest ← filterE p cs
    pure (if b then c :: rest else rest)

/-- `filterByPopularity` from src/filters.js: normalize the flag (a throw
propagates); when it is false return the data unchanged; otherwise keep
records whose normalized `popular` field equals the normalized flag,
re-normalizing both per record exactly as the source does. -/
def filterByPopularity (data : List Couplet) (popular : JSValue) : Except String (List Couplet) :=
  match toBool popular with
  | .error e => .error e
  | .ok pb =>
    if pb = false then .ok data
    else
      filterE (fun post => do
        let a ← toBool post.popular
        let b ← toBool popular
        pure (a == b)) data

/-- The environment of host functions the sorter's comparator closes over:
the `Math.random()`-driven comparator of the "random" branch (modelled as
an arbitrary function, since its value is nondeterministic) and the two
`localeCompare` collators (default locale and Hindi locale), which depend
on the host's ICU tables. -/
structure SortEnv where
  rnd : Couplet → Couplet → Int
  lcEn : String → String → Int
  lcHi : String → String → Int

/-- The comparator of `sortData` (src/filters.js lines 123-160), after
`orderBy`/`order` normalization: dispatch on the sort field; the "id"
branch compares `Number(a.id) - Number(b.id)` (a NaN comparator result is
treated as +0 by the ECMAScript sort); the generic branch uses the raw `<`
comparison on the string field value, with `undefined` operands comparing
false on both sides (result 0). -/
def sortCmp (env : SortEnv) (normalizedOrderBy normalizedOrder : String)
    (a b : Couplet) : Int :=
  if normalizedOrderBy = "random" then env.rnd a b
  else if normalizedOrderBy = "couplet_english" then
    if normalizedOrder = "ASC" then env.lcEn a.couplet_english b.couplet_english
    else env.lcEn b.couplet_english a.couplet_english
  else if normalizedOrderBy = "couplet_hindi" then
    if normalizedOrder = "ASC" then env.lcHi a.couplet_hindi b.couplet_hindi
    else env.lcHi b.couplet_hindi a.couplet_hindi
  else if normalizedOrderBy = "popular" then
    if a.popular = b.popular then
      if normalizedOrder = "ASC" then env.lcHi a.couplet_hindi b.couplet_hindi
      else env.lcHi b.couplet_hindi a.couplet_hindi
    else
      if normalizedOrder = "ASC" then (if jsTruthy a.popular then -1 else 1)
      else (if jsTruthy a.popular then 1 else -1)
  else if normalizedOrderBy = "id" then
    match jsToNumber a.id, jsToNumber b.id with
    | some aId, some bId => if normalizedOrder = "ASC" then aId - bId else bId - aId
    | _, _ => 0
  else
    match getField a normalizedOrderBy, getField b normalizedOrderBy with
    | some valA, some valB =>
      if valA < valB then (if normalizedOrder = "DESC" then 1 else -1)
      else if valA > valB then (if normalizedOrder = "DESC" then -1 else 1)
      else 0
    | _, _ => 0

/-- `sortData` from src/filters.js: lowercase `orderBy`, uppercase `order`,
then sort with the dispatching comparator. -/
def sortData (env : SortEnv) (data : List Couplet) (orderBy order : String) : List Couplet :=
  jsSort (sortCmp env (jsToLower orderBy) (jsToUpper order)) data

/-- The numeric value of a record's identifier (0 if it does not parse;
the theorems about the "id" sort assume every identifier parses). -/
def numId (c : Couplet) : Int :=
  (jsToNumber c.id).getD 0

/-- The result structure of `paginateData`. -/
structure ResultPage where
  couplets : List Couplet
  total : Nat
  totalPages : Nat
  page : Int
  perPage : Int
  pagination : Bool
deriving DecidableEq, Repr

/-- `Math.ceil(total / limit)` for a positive integral `limit`. -/
def mathCeilDiv (total limit : Nat) : Nat :=
  (total + limit - 1) / limit

/-- The effective page size of `paginateData` lines 174-180:
`Number(perPage)`; -1 becomes the record count; then a non-positive or NaN
value falls back to 10. -/
def effectiveLimit (dataLen : Nat) (perPage : JSValue) : Int :=
  let limit0 := jsValueToNumber perPage
  let limit1 := if limit0 = some (-1) then some (dataLen : Int) else limit0
  match limit1 with
  | none => 10
  | some n => if n ≤ 0 then 10 else n

/-- The effective page number of `paginateData` line 182:
`Math.max(Number(page) || 1, 1)` (0 and NaN are falsy, so they give 1). -/
def effectivePage (page : JSValue) : Int :=
  let p0 : Int :=
    match jsValueToNumber page with
    | none => 1
    | some n => if n = 0 then 1 else n
  max p0 1

/-- The body of `paginateData` after the pagination flag has been
normalized (src/filters.js lines 174-197): compute the effective limit and
page number, slice `[start, start+limit)` unless the page number exceeds
the page count (then the slice is empty), and build the result, with
`total`/`totalPages` replaced by the slice length and 1 when pagination is
disabled. -/
def paginateCore (data : List Couplet) (page perPage : JSValue)
    (isPaginationEnabled : Bool) : ResultPage :=
  let limit := effectiveLimit data.length perPage
  let pageNumber := effectivePage page
  let start := (pageNumber - 1) * limit
  let total := data.length
  let totalPages := mathCeilDiv total limit.toNat
  let paginatedData :=
    if pageNumber > (totalPages : Int) then []
    else (data.drop start.toNat).take limit.toNat
  { couplets := paginatedData
    total := if isPaginationEnabled then total else paginatedData.length
    totalPages := if isPaginationEnabled then totalPages else 1
    page := pageNumber
    perPage := limit
    pagination := isPaginationEnabled }

/-- `paginateData` from src/filters.js: normalize the pagination flag with
`toBool` (line 172; a conversion failure aborts the call), then run the
pure body. -/
def paginateData (data : List Couplet) (page perPage pagination : JSValue) :
    Except String ResultPage :=
  (toBool pagination).map (paginateCore data page perPage)

/-- A sample record used by concrete witnesses and counterexamples. -/
def mkCouplet (i : String) (hin : String) : Couplet :=
  { id := i, slug := "", unique_slug := "", couplet_hindi := hin,
    couplet_english := "", translation_hindi := "", translation_english := "",
    explanation_hindi := "", explanation_english := "", tags := [],
    popular := .vBool false }

/-- Sample records used by concrete witnesses and counterexamples. -/
def sampOne : Couplet := mkCouplet "1" "abc"

/-- Sample records used by concrete witnesses and counterexamples. -/
def sampTwo : Couplet := mkCouplet "2" "xyz"

/-- A sample record whose `popular` field is not a recognized boolean
representation. -/
def badPopRecord : Couplet :=
  { mkCouplet "9" "bad" with popular := .vStr "maybe" }

/-- A sort environment whose host-dependent comparators all return 0, for
concrete witnesses (the claims proved about `sortData` hold for every
environment). -/
def zeroEnv : SortEnv :=
  { rnd := fun _ _ => 0, lcEn := fun _ _ => 0, lcHi := fun _ _ => 0 }

/-! ### Generic facts about the modelled JS sort -/

theorem jsInsert_perm (cmp : α → α → Int) (x : α) (l : List α) :
    (jsInsert cmp x l).Perm (x :: l) := by
  induction l with
  | nil => exact List.Perm.refl _
  | cons y ys ih =>
    by_cases h : cmp x y ≤ 0
    · rw [jsInsert, if_pos h]
    · rw [jsInsert, if_neg h]
      exact (ih.cons y).trans (List.Perm.swap x y ys)

theorem jsSort_perm (cmp : α → α → Int) (l : List α) : (jsSort cmp l).Perm l := by
  induction l with
  | nil => exact List.Perm.refl _
  | cons x xs ih => exact (jsInsert_perm cmp x (jsSort cmp xs)).trans (ih.cons x)

theorem mem_jsInsert (cmp : α → α → Int) (x y : α) (l : List α) :
    y ∈ jsInsert cmp x l ↔ y = x ∨ y ∈ l := by
  rw [(jsInsert_perm cmp x l).mem_iff, List.mem_cons]

theorem mem_jsSort (cmp : α → α → Int) (y : α) (l : List α) :
    y ∈ jsSort cmp l ↔ y ∈ l :=
  (jsSort_perm cmp l).mem_iff

theorem jsInsert_partition (p : α → Bool) (cmp : α → α → Int)
    (hcmp : ∀ a b, cmp a b
      = if p a && !(p b) then -1 else if !(p a) && p b then 1 else 0)
    (x : α) (A B : List α) (hA : ∀ a ∈ A, p a = true) (hB : ∀ b ∈ B, p b = false) :
    jsInsert cmp x (A ++ B) = if p x then x :: (A ++ B) else A ++ x :: B := by
  induction A with
  | nil =>
    cases B with
    | nil => cases hx : p x <;> simp [jsInsert, hx]
    | cons b bs =>
      have hb := hB b (List.mem_cons_self b bs)
      have hle : cmp x b ≤ 0 := by
        rw [hcmp]; cases hx : p x <;> simp [hx, hb]
      cases hx : p x <;> simp [jsInsert, hle, hx]
  | cons a as ih =>
    have ha := hA a (List.mem_cons_self a as)
    cases hx : p x with
    | true =>
      have hle : cmp x a ≤ 0 := by rw [hcmp]; simp [hx, ha]
      simp [jsInsert, hle, hx]
    | false =>
      have hgt : ¬ cmp x a ≤ 0 := by rw [hcmp]; simp [hx, ha]
      have ih' := ih (fun a' ha' => hA a' (List.mem_cons_of_mem a ha'))
      rw [if_neg (by simp [hx])] at ih'
      simp only [List.cons_append, jsInsert, if_neg hgt, ih']
      simp
      exact ih'

theorem jsSort_partition (p : α → Bool) (cmp : α → α → Int)
    (hcmp : ∀ a b, cmp a b
      = if p a && !(p b) then -1 else if !(p a) && p b then 1 else 0)
    (l : List α) :
    jsSort cmp l = l.filter p ++ l.filter (fun a => !(p a)) := by
  induction l with
  | nil => rfl
  | cons x xs ih =>
    have hA : ∀ a ∈ xs.filter p, p a = true := fun a ha => (List.mem_filter.mp ha).2
    have hB : ∀ b ∈ xs.filter (fun a => !(p a)), p b = false := by
      intro b hb
      have := (List.mem_filter.mp hb).2
      simpa using this
    rw [jsSort, ih, jsInsert_partition p cmp hcmp x _ _ hA hB]
    cases hx : p x <;> simp [List.filter_cons, hx]

theorem jsInsert_pairwise_key (k : α → Int) (cmp : α → α → Int) (x : α) (l : List α)
    (hx : ∀ b ∈ l, cmp x b = k x - k b)
    (hl : l.Pairwise (fun a b => k a ≤ k b)) :
    (jsInsert cmp x l).Pairwise (fun a b => k a ≤ k b) := by
  induction l with
  | nil => simp [jsInsert]
  | cons y ys ih =>
    have hxy : cmp x y = k x - k y := hx y (List.mem_cons_self y ys)
    rcases List.pairwise_cons.mp hl with ⟨hy, hys⟩
    by_cases h : cmp x y ≤ 0
    · rw [jsInsert, if_pos h]
      have hkxy : k x ≤ k y := by rw [hxy] at h; omega
      refine List.pairwise_cons.mpr ⟨?_, hl⟩
      intro b hb
      rcases List.mem_cons.mp hb with rfl | hb
      · exact hkxy
      · exact le_trans hkxy (hy b hb)
    · rw [jsInsert, if_neg h]
      have hkyx : k y ≤ k x := by rw [hxy] at h; omega
      refine List.pairwise_cons.mpr
        ⟨?_, ih (fun b hb => hx b (List.mem_cons_of_mem y hb)) hys⟩
      intro b hb
      rcases (mem_jsInsert cmp x b ys).mp hb with rfl | hb
      · exact hkyx
      · exact hy b hb

theorem jsSort_pairwise_key (k : α → Int) (cmp : α → α → Int) (l : List α)
    (h : ∀ a ∈ l, ∀ b ∈ l, cmp a b = k a - k b) :
    (jsSort cmp l).Pairwise (fun a b => k a ≤ k b) := by
  induction l with
  | nil => simp [jsSort]
  | cons x xs ih =>
    rw [jsSort]
    refine jsInsert_pairwise_key k cmp x (jsSort cmp xs) ?_
      (ih (fun a ha b hb =>
        h a (List.mem_cons_of_mem x ha) b (List.mem_cons_of_mem x hb)))
    intro b hb
    have hbx : b ∈ xs := (mem_jsSort cmp b xs).mp hb
    exact h x (List.mem_cons_self x xs) b (List.mem_cons_of_mem x hbx)

/-! ### Facts about the Map-based deduplication -/

theorem dedupeByKey_append (l₁ l₂ : List Couplet) (seen : List String) :
    dedupeByKey (l₁ ++ l₂) seen
      = dedupeByKey l₁ seen ++ dedupeByKey l₂ (keysAfter l₁ seen) := by
  induction l₁ generalizing seen with
  | nil => rfl
  | cons c cs ih =>
    by_cases h : coupletKey c ∈ seen
    · simp [dedupeByKey, keysAfter, h, ih]
    · simp [dedupeByKey, keysAfter, h, ih]

theorem subset_keysAfter (l : List Couplet) (seen : List String) :
    ∀ s ∈ seen, s ∈ keysAfter l seen := by
  induction l generalizing seen with
  | nil => intro s hs; simpa [keysAfter] using hs
  | cons c cs ih =>
    intro s hs
    by_cases h : coupletKey c ∈ seen
    · rw [keysAfter, if_pos h]; exact ih seen s hs
    · rw [keysAfter, if_neg h]; exact ih _ s (List.mem_cons_of_mem _ hs)

theorem key_mem_keysAfter (l : List Couplet) (seen : List String) :
    ∀ c ∈ l, coupletKey c ∈ keysAfter l seen := by
  induction l generalizing seen with
  | nil => simp
  | cons d ds ih =>
    intro c hc
    rcases List.mem_cons.mp hc with rfl | hc
    · by_cases h : coupletKey c ∈ seen
      · rw [keysAfter, if_pos h]; exact subset_keysAfter ds seen _ h
      · rw [keysAfter, if_neg h]
        exact subset_keysAfter ds _ _ (List.mem_cons_self _ _)
    · by_cases h : coupletKey d ∈ seen
      · rw [keysAfter, if_pos h]; exact ih seen c hc
      · rw [keysAfter, if_neg h]; exact ih _ c hc

theorem mem_dedupeByKey (l : List Couplet) (seen : List String) :
    ∀ c ∈ dedupeByKey l seen, c ∈ l ∧ coupletKey c ∉ seen := by
  induction l generalizing seen with
  | nil => simp [dedupeByKey]
  | cons d ds ih =>
    intro c hc
    by_cases h : coupletKey d ∈ seen
    · rw [dedupeByKey, if_pos h] at hc
      obtain ⟨h1, h2⟩ := ih seen c hc
      exact ⟨List.mem_cons_of_mem d h1, h2⟩
    · rw [dedupeByKey, if_neg h] at hc
      rcases List.mem_cons.mp hc with rfl | hc
      · exact ⟨List.mem_cons_self _ _, h⟩
      · obtain ⟨h1, h2⟩ := ih _ c hc
        exact ⟨List.mem_cons_of_mem d h1,
          fun hs => h2 (List.mem_cons_of_mem _ hs)⟩

theorem dedupeByKey_sublist (l : List Couplet) (seen : List String) :
    (dedupeByKey l seen).Sublist l := by
  induction l generalizing seen with
  | nil => simp [dedupeByKey]
  | cons c cs ih =>
    by_cases h : coupletKey c ∈ seen
    · rw [dedupeByKey, if_pos h]
      exact (ih seen).trans (List.sublist_cons_self c cs)
    · rw [dedupeByKey, if_neg h]
      exact (ih _).cons₂ c

/-! ### Facts about the search filter -/

theorem filterBySearch_eq (data : List Couplet) (search : String) (exactMatch : JSValue)
    (searchWithin : String) (hs : search ≠ "") (em : Bool)
    (hem : toBool exactMatch = .ok em) :
    filterBySearch data search exactMatch searchWithin
      = .ok (jsSort (exactCmp (fieldsToSearch searchWithin) (jsToLower search))
          (dedupeByKey
            (data.filter (matchesWhole (fieldsToSearch searchWithin) (jsToLower search))
              ++ (if !em then
                    data.filter (matchesToken (fieldsToSearch searchWithin) (searchTermsOf search))
                  else []))
            [])) := by
  simp only [filterBySearch, if_neg hs, hem]

/-- C5.  For a non-empty search whose `exactMatch` option normalizes, the
output of `filterBySearch` splits as `l₁ ++ l₂` where `l₁` holds only
whole-string (tier-a) matches, `l₂` holds only records that token-match but
do not whole-string match (tier-b-only), and each part is a subsequence of
the input list, i.e. keeps the original relative order: a stable
partition. -/
theorem filterBySearch_tiered (data : List Couplet) (search : String)
    (exactMatch : JSValue) (searchWithin : String) (hs : search ≠ "")
    (em : Bool) (hem : toBool exactMatch = .ok em) :
    ∃ out l₁ l₂,
      filterBySearch data search exactMatch searchWithin = .ok out ∧
      out = l₁ ++ l₂ ∧ l₁.Sublist data ∧ l₂.Sublist data ∧
      (∀ c ∈ l₁, matchesWhole (fieldsToSearch searchWithin) (jsToLower search) c = true) ∧
      (∀ c ∈ l₂, matchesToken (fieldsToSearch searchWithin) (searchTermsOf search) c = true ∧
        matchesWhole (fieldsToSearch searchWithin) (jsToLower search) c = false) := by
  have hfirst := filterBySearch_eq data search exactMatch searchWithin hs em hem
  set fields := fieldsToSearch searchWithin with hfields
  set sl := jsToLower search with hsl
  set terms := searchTermsOf search with hterms
  set E := data.filter (matchesWhole fields sl) with hE
  set P := (if !em then data.filter (matchesToken fields terms) else []) with hP
  set A := dedupeByKey E [] with hA
  set B := dedupeByKey P (keysAfter E []) with hB
  have hmerge : dedupeByKey (E ++ P) [] = A ++ B := dedupeByKey_append E P []
  have hAall : ∀ a ∈ A, matchesWhole fields sl a = true := by
    intro a ha
    exact (List.mem_filter.mp (mem_dedupeByKey E [] a ha).1).2
  have hBall : ∀ b ∈ B, matchesToken fields terms b = true ∧
      matchesWhole fields sl b = false := by
    intro b hb
    obtain ⟨hbP, hbk⟩ := mem_dedupeByKey P _ b hb
    cases em with
    | true => simp [hP] at hbP
    | false =>
      rw [hP] at hbP
      simp only [Bool.not_false, if_pos] at hbP
      have hbtok := (List.mem_filter.mp hbP).2
      have hbdata := (List.mem_filter.mp hbP).1
      refine ⟨hbtok, ?_⟩
      by_contra hW
      have hWt : matchesWhole fields sl b = true := by
        revert hW; cases matchesWhole fields sl b <;> simp
      have hbE : b ∈ E := by rw [hE]; exact List.mem_filter.mpr ⟨hbdata, hWt⟩
      exact hbk (key_mem_keysAfter E [] b hbE)
  have hcmp : ∀ a b : Couplet, exactCmp fields sl a b
      = if (matchesWhole fields sl a) && !(matchesWhole fields sl b) then -1
        else if !(matchesWhole fields sl a) && (matchesWhole fields sl b) then 1
        else 0 := fun a b => rfl
  have hsorted : jsSort (exactCmp fields sl) (A ++ B) = A ++ B := by
    rw [jsSort_partition (matchesWhole fields sl) _ hcmp]
    have h1 : (A ++ B).filter (matchesWhole fields sl) = A := by
      rw [List.filter_append, List.filter_eq_self.mpr hAall,
        List.filter_eq_nil_iff.mpr (by intro b hb; simp [(hBall b hb).2])]
      simp
    have h2 : (A ++ B).filter (fun a => !(matchesWhole fields sl a)) = B := by
      rw [List.filter_append,
        List.filter_eq_nil_iff.mpr (by intro a ha; simp [hAall a ha]),
        List.filter_eq_self.mpr (by intro b hb; simp [(hBall b hb).2])]
      simp
    rw [h1, h2]
  have hPdata : P.Sublist data := by
    cases em with
    | true => simp [hP]
    | false =>
      rw [hP]
      simp
  refine ⟨A ++ B, A, B, ?_, rfl, ?_, ?_, hAall, hBall⟩
  · rw [hfirst, hmerge, hsorted]
  · exact (dedupeByKey_sublist E []).trans (List.filter_sublist data)
  · exact (dedupeByKey_sublist P _).trans hPdata

/-- C6.  Exact-match mode is monotone: every record returned by
`filterBySearch` with `exactMatch = true` is also returned with
`exactMatch = false` for the same non-empty query and scope. -/
theorem filterBySearch_exact_subset (data : List Couplet) (search searchWithin : String)
    (hs : search ≠ "") (outT outF : List Couplet)
    (hT : filterBySearch data search (.vBool true) searchWithin = .ok outT)
    (hF : filterBySearch data search (.vBool false) searchWithin = .ok outF) :
    ∀ c ∈ outT, c ∈ outF := by
  have hT' := filterBySearch_eq data search (.vBool true) searchWithin hs true rfl
  have hF' := filterBySearch_eq data search (.vBool false) searchWithin hs false rfl
  rw [hT] at hT'
  rw [hF] at hF'
  have hTeq := Except.ok.inj hT'
  have hFeq := Except.ok.inj hF'
  simp only [Bool.not_true, Bool.not_false] at hTeq hFeq
  simp at hTeq hFeq
  intro c hc
  rw [hTeq] at hc
  rw [hFeq]
  have hcE := (mem_jsSort _ c _).mp hc
  refine (mem_jsSort _ c _).mpr ?_
  rw [dedupeByKey_append]
  exact List.mem_append_left _ hcE

/-! ### Facts about the sorter -/

theorem sortCmp_id_asc (env : SortEnv) (a b : Couplet)
    (ha : (jsToNumber a.id).isSome) (hb : (jsToNumber b.id).isSome) :
    sortCmp env "id" "ASC" a b = numId a - numId b := by
  obtain ⟨x, hx⟩ := Option.isSome_iff_exists.mp ha
  obtain ⟨y, hy⟩ := Option.isSome_iff_exists.mp hb
  unfold sortCmp
  rw [if_neg (by decide), if_neg (by decide), if_neg (by decide),
    if_neg (by decide), if_pos rfl, hx, hy]
  simp [numId, hx, hy]

theorem sortCmp_id_desc (env : SortEnv) (a b : Couplet)
    (ha : (jsToNumber a.id).isSome) (hb : (jsToNumber b.id).isSome) :
    sortCmp env "id" "DESC" a b = (-(numId a)) - (-(numId b)) := by
  obtain ⟨x, hx⟩ := Option.isSome_iff_exists.mp ha
  obtain ⟨y, hy⟩ := Option.isSome_iff_exists.mp hb
  unfold sortCmp
  rw [if_neg (by decide), if_neg (by decide), if_neg (by decide),
    if_neg (by decide), if_pos rfl, hx, hy]
  simp only [if_neg (by decide : ¬ ("DESC" : String) = "ASC")]
  simp [numId, hx, hy]
  omega

/-- A strictly `numId`-sorted permutation of a fixed list is unique. -/
theorem eq_of_perm_of_numId_lt_sorted (l₁ l₂ : List Couplet)
    (hp : l₁.Perm l₂)
    (h₁ : l₁.Pairwise (fun a b => numId a < numId b))
    (h₂ : l₂.Pairwise (fun a b => numId a < numId b)) : l₁ = l₂ := by
  haveI : IsAntisymm Couplet (fun a b => numId a < numId b) :=
    ⟨fun a b hab hba => absurd (lt_trans hab hba) (lt_irrefl _)⟩
  exact List.eq_of_perm_of_sorted hp h₁ h₂

/-- From non-strict `numId`-sortedness and distinct `numId` values, strict
sortedness. -/
theorem pairwise_lt_of_pairwise_le_nodup (l : List Couplet)
    (hle : l.Pairwise (fun a b => numId a ≤ numId b))
    (hnd : (l.map numId).Nodup) :
    l.Pairwise (fun a b => numId a < numId b) := by
  have hne : l.Pairwise (fun a b => numId a ≠ numId b) := List.pairwise_map.mp hnd
  exact (hle.and hne).imp (fun h => lt_of_le_of_ne h.1 h.2)

/-- C7.  Sorting by "id": with every identifier a numeric string and the
numeric identifiers distinct, ascending order yields non-decreasing numeric
identifiers and descending order is exactly the reverse of the ascending
result, for every sort environment. -/
theorem sortData_id_asc_desc (env : SortEnv) (data : List Couplet)
    (hnum : ∀ c ∈ data, (jsToNumber c.id).isSome)
    (huniq : (data.map numId).Nodup) :
    (sortData env data "id" "ASC").Pairwise (fun a b => numId a ≤ numId b) ∧
    sortData env data "id" "DESC" = (sortData env data "id" "ASC").reverse := by
  have hlow : jsToLower "id" = "id" := by decide
  have hupA : jsToUpper "ASC" = "ASC" := by decide
  have hupD : jsToUpper "DESC" = "DESC" := by decide
  have hascEq : sortData env data "id" "ASC" = jsSort (sortCmp env "id" "ASC") data := by
    rw [sortData, hlow, hupA]
  have hdescEq : sortData env data "id" "DESC" = jsSort (sortCmp env "id" "DESC") data := by
    rw [sortData, hlow, hupD]
  have hascPair : (jsSort (sortCmp env "id" "ASC") data).Pairwise
      (fun a b => numId a ≤ numId b) :=
    jsSort_pairwise_key numId _ data
      (fun a ha b hb => sortCmp_id_asc env a b (hnum a ha) (hnum b hb))
  have hdescPair : (jsSort (sortCmp env "id" "DESC") data).Pairwise
      (fun a b => (-(numId a)) ≤ (-(numId b))) :=
    jsSort_pairwise_key (fun c => -(numId c)) _ data
      (fun a ha b hb => sortCmp_id_desc env a b (hnum a ha) (hnum b hb))
  refine ⟨by rw [hascEq]; exact hascPair, ?_⟩
  rw [hascEq, hdescEq]
  have hascPerm : (jsSort (sortCmp env "id" "ASC") data).Perm data :=
    jsSort_perm _ data
  have hdescPerm : (jsSort (sortCmp env "id" "DESC") data).Perm data :=
    jsSort_perm _ data
  have hrevPerm : ((jsSort (sortCmp env "id" "DESC") data).reverse).Perm
      (jsSort (sortCmp env "id" "ASC") data) :=
    (((jsSort (sortCmp env "id" "DESC") data).reverse_perm).trans hdescPerm).trans
      hascPerm.symm
  have hascNodup : ((jsSort (sortCmp env "id" "ASC") data).map numId).Nodup :=
    ((hascPerm.map numId).nodup_iff).mpr huniq
  have hrevNodup : (((jsSort (sortCmp env "id" "DESC") data).reverse).map numId).Nodup :=
    ((hrevPerm.map numId).nodup_iff).mpr hascNodup
  have hrevPair : ((jsSort (sortCmp env "id" "DESC") data).reverse).Pairwise
      (fun a b => numId a ≤ numId b) := by
    rw [List.pairwise_reverse]
    exact hdescPair.imp (fun h => by omega)
  have heq := eq_of_perm_of_numId_lt_sorted _ _ hrevPerm
    (pairwise_lt_of_pairwise_le_nodup _ hrevPair hrevNodup)
    (pairwise_lt_of_pairwise_le_nodup _ hascPair hascNodup)
  rw [← heq]
  rw [List.reverse_reverse]

/-- C9.  An empty search text short-circuits `filterBySearch`: the input
list is returned unchanged and the `exactMatch` option is never
normalized, so even an unconvertible `exactMatch` value cannot raise. -/
theorem filterBySearch_empty_search (data : List Couplet) (exactMatch : JSValue)
    (searchWithin : String) :
    filterBySearch data "" exactMatch searchWithin = .ok data := by
  simp [filterBySearch]

/-! ### Facts about the paginator -/

/-- C1 (amended).  Disabling pagination does not change the returned
`couplets` list: it is the same page-sized slice computed with pagination
enabled; the flag only changes the metadata, forcing `totalPages = 1` and
`total` to the slice's length. -/
theorem paginateData_disabled_is_slice (data : List Couplet) (page perPage : JSValue) :
    paginateData data page perPage (.vBool false)
      = .ok (paginateCore data page perPage false) ∧
    (paginateCore data page perPage false).couplets
      = (paginateCore data page perPage true).couplets ∧
    (paginateCore data page perPage false).totalPages = 1 ∧
    (paginateCore data page perPage false).total
      = (paginateCore data page perPage false).couplets.length :=
  ⟨rfl, rfl, rfl, rfl⟩

/-- C1 (counterexample).  With pagination disabled, two records and
`perPage = 1`, `paginateData` returns a one-record slice, not the full
two-record list. -/
theorem paginateData_disabled_not_full :
    (paginateData [sampOne, sampTwo] (.vNum 1) (.vNum 1) (.vBool false)).map
        ResultPage.couplets = .ok [sampOne] ∧
    [sampOne] ≠ [sampOne, sampTwo] :=
  ⟨by decide, by decide⟩

/-- C2 (amended).  `paginateData` succeeds exactly when `toBool` accepts
the pagination flag: there is no graceful fallback, an unrecognized flag
value propagates `toBool`'s conversion error. -/
theorem paginateData_ok_iff_flag_ok (data : List Couplet)
    (page perPage pagination : JSValue) :
    (paginateData data page perPage pagination).isOk = (toBool pagination).isOk := by
  unfold paginateData
  cases toBool pagination <;> rfl

/-- C2 (counterexample).  The unrecognized pagination token "yes" makes
`paginateData` throw rather than fall back to a string comparison. -/
theorem paginateData_unrecognized_flag_throws :
    (paginateData ([] : List Couplet) (.vNum 1) (.vNum 10) (.vStr "yes")).isOk
      = false := by decide

/-- C3 (amended).  Effective page size: `perPage = -1` gives the full
record count for a non-empty list (and then page 1 returns every record),
but for the empty list it falls back to 10; `perPage ≤ 0` other than -1 and
non-numeric `perPage` also fall back to 10. -/
theorem paginateData_effective_perPage (data : List Couplet) (page : JSValue) (e : Bool) :
    (data ≠ [] → (paginateCore data page (.vNum (-1)) e).perPage = (data.length : Int)) ∧
    ((paginateCore ([] : List Couplet) page (.vNum (-1)) e).perPage = 10) ∧
    (∀ n : Int, n ≤ 0 → n ≠ -1 → (paginateCore data page (.vNum n) e).perPage = 10) ∧
    (∀ pp : JSValue, jsValueToNumber pp = none →
      (paginateCore data page pp e).perPage = 10) ∧
    (data ≠ [] →
      paginateData data (.vNum 1) (.vNum (-1)) (.vBool true)
        = .ok (paginateCore data (.vNum 1) (.vNum (-1)) true) ∧
      (paginateCore data (.vNum 1) (.vNum (-1)) true).couplets = data) := by
  have hlim : ∀ len : Nat, 0 < len →
      effectiveLimit len (.vNum (-1)) = (len : Int) := by
    intro len hpos
    simp only [effectiveLimit, jsValueToNumber]
    rw [if_pos trivial]
    show (if (len : Int) ≤ 0 then 10 else (len : Int)) = (len : Int)
    rw [if_neg (by omega)]
  refine ⟨?_, ?_, ?_, ?_, ?_⟩
  · intro hne
    have hpos : 0 < data.length := List.length_pos.mpr hne
    show effectiveLimit data.length (.vNum (-1)) = (data.length : Int)
    exact hlim data.length hpos
  · rfl
  · intro n hn hne
    show effectiveLimit data.length (.vNum n) = 10
    simp only [effectiveLimit, jsValueToNumber]
    rw [if_neg (by simp [hne])]
    show (if n ≤ 0 then (10 : Int) else n) = 10
    rw [if_pos hn]
  · intro pp hpp
    show effectiveLimit data.length pp = 10
    simp only [effectiveLimit, hpp]
    rw [if_neg (by simp)]
  · intro hne
    have hpos : 0 < data.length := List.length_pos.mpr hne
    refine ⟨rfl, ?_⟩
    have hpage : effectivePage (.vNum 1) = 1 := by decide
    have hceil : mathCeilDiv data.length data.length = 1 := by
      unfold mathCeilDiv
      apply Nat.div_eq_of_lt_le <;> omega
    have hlen : (effectiveLimit data.length (.vNum (-1))).toNat = data.length := by
      rw [hlim data.length hpos]
      omega
    simp only [paginateCore, hpage, hlen, hceil, sub_self, zero_mul, Int.toNat_zero,
      List.drop_zero]
    rw [if_neg (by omega)]
    simp

/-- C3 (counterexample).  On the empty record list, `perPage = -1` yields
an effective page size of 10, not the full record count 0. -/
theorem paginateData_empty_allMode_perPage :
    (paginateData ([] : List Couplet) (.vNum 1) (.vNum (-1)) (.vBool true)).map
        ResultPage.perPage = .ok 10 ∧
    (10 : Int) ≠ (([] : List Couplet).length : Int) :=
  ⟨by decide, by decide⟩

/-- C4.  With pagination enabled, when the effective page number exceeds
the computed total page count, the returned `couplets` list is empty while
`total` is the full record count and `totalPages` is the page count of the
full set. -/
theorem paginateData_page_beyond (data : List Couplet) (page perPage : JSValue)
    (h : (paginateCore data page perPage true).page
      > ((paginateCore data page perPage true).totalPages : Int)) :
    paginateData data page perPage (.vBool true)
      = .ok (paginateCore data page perPage true) ∧
    (paginateCore data page perPage true).couplets = [] ∧
    (paginateCore data page perPage true).total = data.length ∧
    (paginateCore data page perPage true).totalPages
      = mathCeilDiv data.length (effectiveLimit data.length perPage).toNat := by
  refine ⟨rfl, ?_, rfl, rfl⟩
  have h' : effectivePage page
      > ((mathCeilDiv data.length (effectiveLimit data.length perPage).toNat : Nat) : Int) := by
    simpa [paginateCore] using h
  simp only [paginateCore]
  rw [if_pos h']

/-! ### Facts about boolean normalization and the popularity filter -/

/-- C8.  `toBool` returns true exactly for boolean `true`, the number 1,
and strings whose trimmed lowercasing is "true" or "1"; false exactly for
boolean `false`, the number 0, and trimmed-lowercased "false" or "0"; and
throws a conversion error for every other input. -/
theorem toBool_characterization (v : JSValue) :
    (toBool v = .ok true ↔
      (v = .vBool true ∨ v = .vNum 1 ∨
        ∃ s, v = .vStr s ∧ (jsToLower (jsTrim s) = "true" ∨ jsToLower (jsTrim s) = "1"))) ∧
    (toBool v = .ok false ↔
      (v = .vBool false ∨ v = .vNum 0 ∨
        ∃ s, v = .vStr s ∧ (jsToLower (jsTrim s) = "false" ∨ jsToLower (jsTrim s) = "0"))) ∧
    ((toBool v).isOk = false ↔
      ¬(v = .vBool true ∨ v = .vNum 1 ∨
        ∃ s, v = .vStr s ∧ (jsToLower (jsTrim s) = "true" ∨ jsToLower (jsTrim s) = "1")) ∧
      ¬(v = .vBool false ∨ v = .vNum 0 ∨
        ∃ s, v = .vStr s ∧ (jsToLower (jsTrim s) = "false" ∨ jsToLower (jsTrim s) = "0"))) := by
  cases v with
  | vBool b => cases b <;> simp [toBool, Except.isOk, Except.toBool]
  | vNum n =>
    by_cases h1 : n = 1
    · simp [toBool, h1, Except.isOk, Except.toBool]
    · by_cases h0 : n = 0 <;> simp [toBool, h1, h0, Except.isOk, Except.toBool]
  | vStr s =>
    by_cases ht : jsToLower (jsTrim s) = "true"
    · simp [toBool, ht, Except.isOk, Except.toBool]
    · by_cases h1 : jsToLower (jsTrim s) = "1"
      · simp [toBool, ht, h1, Except.isOk, Except.toBool]
      · by_cases hf : jsToLower (jsTrim s) = "false"
        · simp [toBool, ht, h1, hf, Except.isOk, Except.toBool]
        · by_cases h0 : jsToLower (jsTrim s) = "0" <;>
            simp [toBool, ht, h1, hf, h0, Except.isOk, Except.toBool]
  | vNull => simp [toBool, Except.isOk, Except.toBool]
  | vUndef => simp [toBool, Except.isOk, Except.toBool]

theorem filterE_error_of_bad (p : Couplet → Except String Bool) (l : List Couplet)
    (c : Couplet) (hc : c ∈ l) (e : String) (hbad : p c = .error e) :
    ∃ msg, filterE p l = .error msg := by
  induction l with
  | nil => cases hc
  | cons d ds ih =>
    rcases List.mem_cons.mp hc with rfl | hc'
    · exact ⟨e, by simp only [filterE]; rw [hbad]; exact rfl⟩
    · cases hd : p d with
      | error e' => exact ⟨e', by simp only [filterE]; rw [hd]; exact rfl⟩
      | ok b =>
        obtain ⟨msg, hmsg⟩ := ih hc'
        exact ⟨msg, by simp only [filterE]; rw [hd, hmsg]; exact rfl⟩

/-- C10.  When the popularity flag normalizes to true, the filter
normalizes every record's `popular` field; if some record's `popular`
value is not a recognized boolean representation, the whole call raises a
conversion error instead of silently including or excluding the record. -/
theorem filterByPopularity_throws_on_bad_record (data : List Couplet) (popular : JSValue)
    (hflag : toBool popular = .ok true) (c : Couplet) (hc : c ∈ data)
    (e : String) (hbad : toBool c.popular = .error e) :
    ∃ msg, filterByPopularity data popular = .error msg := by
  have hpred : (do
      let a ← toBool c.popular
      let b ← Except.ok true
      pure (a == b) : Except String Bool) = Except.error e := by
    rw [show (do
      let a ← toBool c.popular
      let b ← Except.ok true
      pure (a == b) : Except String Bool) = Except.bind (toBool c.popular)
        (fun a => Except.bind (Except.ok true) (fun b => pure (a == b))) from rfl]
    rw [hbad]
    exact rfl
  unfold filterByPopularity
  rw [hflag]
  exact filterE_error_of_bad _ data c hc e hpred

/-! ### Concrete witnesses -/

/-- Witness for C3: the amended effective-page-size rule evaluated on
concrete inputs. -/
theorem paginateData_effective_perPage_witness :
    (paginateCore [sampOne] (.vNum 1) (.vNum (-1)) true).perPage
        = (([sampOne] : List Couplet).length : Int) ∧
    (paginateCore ([] : List Couplet) (.vNum 1) (.vNum (-1)) true).perPage = 10 ∧
    (paginateCore [sampOne] (.vNum 1) (.vNum (-2)) true).perPage = 10 ∧
    (paginateCore [sampOne] (.vNum 1) (.vStr "abc") true).perPage = 10 ∧
    (paginateCore [sampOne] (.vNum 1) (.vNum (-1)) true).couplets = [sampOne] := by
  obtain ⟨h1, h2, h3, h4, h5⟩ := paginateData_effective_perPage [sampOne] (.vNum 1) true
  exact ⟨h1 (by decide), h2, h3 (-2) (by decide) (by decide),
    h4 (.vStr "abc") (by decide), (h5 (by decide)).2⟩

/-- Witness for C4: three-record list, `perPage = 10`, requested page 5. -/
theorem paginateData_page_beyond_witness :
    ((paginateCore [sampOne, sampTwo] (.vNum 5) (.vNum 10) true).page
        > ((paginateCore [sampOne, sampTwo] (.vNum 5) (.vNum 10) true).totalPages : Int)) ∧
    (paginateData [sampOne, sampTwo] (.vNum 5) (.vNum 10) (.vBool true)
        = .ok (paginateCore [sampOne, sampTwo] (.vNum 5) (.vNum 10) true) ∧
      (paginateCore [sampOne, sampTwo] (.vNum 5) (.vNum 10) true).couplets = [] ∧
      (paginateCore [sampOne, sampTwo] (.vNum 5) (.vNum 10) true).total
        = ([sampOne, sampTwo] : List Couplet).length ∧
      (paginateCore [sampOne, sampTwo] (.vNum 5) (.vNum 10) true).totalPages
        = mathCeilDiv ([sampOne, sampTwo] : List Couplet).length
            (effectiveLimit ([sampOne, sampTwo] : List Couplet).length (.vNum 10)).toNat) :=
  ⟨by decide, paginateData_page_beyond [sampOne, sampTwo] (.vNum 5) (.vNum 10) (by decide)⟩

/-- Witness for C5: the tiered-ordering statement evaluated on a concrete
two-record list and the search "abc". -/
theorem filterBySearch_tiered_witness :
    ("abc" ≠ "" ∧ toBool (JSValue.vBool false) = .ok false) ∧
    (∃ out l₁ l₂,
      filterBySearch [sampOne, sampTwo] "abc" (.vBool false) "all" = .ok out ∧
      out = l₁ ++ l₂ ∧ l₁.Sublist [sampOne, sampTwo] ∧ l₂.Sublist [sampOne, sampTwo] ∧
      (∀ c ∈ l₁, matchesWhole (fieldsToSearch "all") (jsToLower "abc") c = true) ∧
      (∀ c ∈ l₂, matchesToken (fieldsToSearch "all") (searchTermsOf "abc") c = true ∧
        matchesWhole (fieldsToSearch "all") (jsToLower "abc") c = false)) :=
  ⟨⟨by decide, rfl⟩,
    filterBySearch_tiered [sampOne, sampTwo] "abc" (.vBool false) "all" (by decide) false rfl⟩

/-- Witness for C6: concrete subset check on a two-record list. -/
theorem filterBySearch_exact_subset_witness :
    ("abc" ≠ "" ∧
      filterBySearch [sampOne, sampTwo] "abc" (.vBool true) "all" = .ok [sampOne] ∧
      filterBySearch [sampOne, sampTwo] "abc" (.vBool false) "all" = .ok [sampOne]) ∧
    (∀ c ∈ [sampOne], c ∈ [sampOne]) :=
  ⟨⟨by decide, by decide, by decide⟩,
    filterBySearch_exact_subset [sampOne, sampTwo] "abc" "all" (by decide)
      [sampOne] [sampOne] (by decide) (by decide)⟩

/-- Witness for C7: sorting two records with identifiers "2", "1". -/
theorem sortData_id_asc_desc_witness :
    ((∀ c ∈ [sampTwo, sampOne], (jsToNumber c.id).isSome) ∧
      (([sampTwo, sampOne].map numId).Nodup)) ∧
    ((sortData zeroEnv [sampTwo, sampOne] "id" "ASC").Pairwise
        (fun a b => numId a ≤ numId b) ∧
      sortData zeroEnv [sampTwo, sampOne] "id" "DESC"
        = (sortData zeroEnv [sampTwo, sampOne] "id" "ASC").reverse) :=
  ⟨⟨by decide, by decide⟩,
    sortData_id_asc_desc zeroEnv [sampTwo, sampOne] (by decide) (by decide)⟩

/-- Witness for C8: the characterization applied to the concrete strings
" TRUE " (accepted) and "maybe" (rejected). -/
theorem toBool_characterization_witness :
    toBool (.vStr " TRUE ") = .ok true ∧ (toBool (.vStr "maybe")).isOk = false := by
  constructor
  · exact (toBool_characterization (.vStr " TRUE ")).1.mpr
      (Or.inr (Or.inr ⟨" TRUE ", rfl, Or.inl (by decide)⟩))
  · refine (toBool_characterization (.vStr "maybe")).2.2.mpr ⟨?_, ?_⟩ <;>
    · rintro (h | h | ⟨s, hs, hcond⟩)
      · exact JSValue.noConfusion h
      · exact JSValue.noConfusion h
      · injection hs with hs'
        subst hs'
        revert hcond
        decide

/-- Witness for C10: a one-record list whose `popular` field is the
unconvertible string "maybe", with the flag `true`. -/
theorem filterByPopularity_throws_witness :
    (toBool (JSValue.vBool true) = .ok true ∧ badPopRecord ∈ [badPopRecord] ∧
      toBool badPopRecord.popular
        = .error "Cannot convert value of type string to boolean.") ∧
    (∃ msg, filterByPopularity [badPopRecord] (.vBool true) = .error msg) :=
  ⟨⟨rfl, List.mem_singleton_self _, by decide⟩,
    filterByPopularity_throws_on_bad_record [badPopRecord] (.vBool true) rfl
      badPopRecord (List.mem_singleton_self _)
      "Cannot convert value of type string to boolean." (by decide)⟩

end Kabir
